import Mathlib

/-!
Shallow embedding of the Market Data Aggregation & Valuation Engine of
`backend/app.py` (class `FinancialDataService` and the dashboard/overview
valuation loop), together with theorems settling the specification claims.

Modelling conventions:
* Python numbers (floats from `float(...)`, DB-sourced quantities/prices)
  are modelled as `ℚ`; volumes (`int(...)`) as `ℤ`.
* A JSON object is modelled by a structure whose optional top-level keys
  are `Option` fields; a date-keyed series mapping is an association list
  `List (String × String)` in the provider's own key order, each value
  reduced to its close-price string (the only inner field the code reads).
* A Python exception that escapes the surrounding `try`/`except` (or the
  whole route handler) is modelled by the function returning `none`.
-/

namespace FinDash

/-- The character for a single decimal digit (`n ≤ 9`). -/
def digitChar (n : ℕ) : Char :=
  match n with
  | 0 => '0' | 1 => '1' | 2 => '2' | 3 => '3' | 4 => '4'
  | 5 => '5' | 6 => '6' | 7 => '7' | 8 => '8' | 9 => '9'
  | _ => '*'

/-- Numeric value of a decimal digit character. -/
def digitVal (c : Char) : ℕ := c.toNat - 48

/-- Value of a list of decimal digit characters, most significant first. -/
def digitsToNat (l : List Char) : ℕ := l.foldl (fun a c => 10 * a + digitVal c) 0

/-- Fuel-indexed decimal printer for naturals (most significant digit first). -/
def natDigitsAux : ℕ → ℕ → List Char
  | 0, _ => []
  | fuel + 1, n =>
    if n < 10 then [digitChar n]
    else natDigitsAux fuel (n / 10) ++ [digitChar (n % 10)]

/-- Decimal digit string of a natural number. -/
def natDigits (n : ℕ) : List Char := natDigitsAux (n + 1) n

/-- Surrounding-whitespace strip, as Python numeric constructors allow. -/
def trimWs (l : List Char) : List Char :=
  ((l.dropWhile Char.isWhitespace).reverse.dropWhile Char.isWhitespace).reverse

/-- The value of a decimal literal: `±(ip + fp / 10^flen)` over `ℚ`. -/
def ratOfParts (neg : Bool) (ip fp flen : ℕ) : ℚ :=
  if neg then -((ip : ℚ) + (fp : ℚ) / 10 ^ flen) else (ip : ℚ) + (fp : ℚ) / 10 ^ flen

/-- The value of an integer literal: `±n` over `ℤ`. -/
def intOfParts (neg : Bool) (n : ℕ) : ℤ := if neg then -(n : ℤ) else (n : ℤ)

/-- Model of Python `float(s)` on optionally signed decimal literals
(`"12"`, `"-3.5"`, `".5"`, `"1."`, surrounding whitespace allowed).
Exotic accepted forms (exponents, `inf`, `nan`, underscores) are outside the
inputs this development considers; every non-literal string yields `none`,
modelling the `ValueError` the Python call raises. -/
def parseFloat (s : String) : Option ℚ :=
  let cs := trimWs s.toList
  let signRest : Bool × List Char :=
    match cs with
    | '-' :: r => (true, r)
    | '+' :: r => (false, r)
    | r => (false, r)
  let neg := signRest.1
  let rest := signRest.2
  let intPart := rest.takeWhile Char.isDigit
  let rest1 := rest.dropWhile Char.isDigit
  match rest1 with
  | [] =>
    if intPart.isEmpty then none
    else some (ratOfParts neg (digitsToNat intPart) 0 0)
  | '.' :: fr =>
    let fracPart := fr.takeWhile Char.isDigit
    let rest2 := fr.dropWhile Char.isDigit
    if rest2.isEmpty && !(intPart.isEmpty && fracPart.isEmpty) then
      some (ratOfParts neg (digitsToNat intPart) (digitsToNat fracPart) fracPart.length)
    else none
  | _ => none

/-- Model of Python `int(s)`: optionally signed digit string, whitespace
allowed; anything else raises, i.e. yields `none`. -/
def parseInt (s : String) : Option ℤ :=
  let cs := trimWs s.toList
  let signRest : Bool × List Char :=
    match cs with
    | '-' :: r => (true, r)
    | '+' :: r => (false, r)
    | r => (false, r)
  let neg := signRest.1
  let rest := signRest.2
  if !rest.isEmpty && rest.all Char.isDigit then
    some (intOfParts neg (digitsToNat rest))
  else none

/-- Model of Python `s.rstrip("%")`: removes every trailing `%` character. -/
def rstripPercent (s : String) : String :=
  String.mk ((s.toList.reverse.dropWhile (fun c => c = '%')).reverse)

/-- Calendar date, as produced by `datetime.strptime(s, "%Y-%m-%d")`. -/
structure Date where
  year : ℕ
  month : ℕ
  day : ℕ
  deriving DecidableEq, Repr

/-- Injective key for chronological comparison of valid dates
(month ≤ 12 and day ≤ 31, as `parseDate` guarantees). -/
def Date.toNatKey (d : Date) : ℕ := d.year * 10000 + d.month * 100 + d.day

/-- Chronological strict order on dates (valid-field encoding). -/
def Date.blt (a b : Date) : Bool := Nat.blt a.toNatKey b.toNatKey

/-- Gregorian leap-year test, as `datetime` validates day ranges. -/
def isLeapYear (y : ℕ) : Bool := (y % 4 == 0 && y % 100 != 0) || y % 400 == 0

/-- Number of days in a month, as `datetime` validates day ranges. -/
def daysInMonth (y m : ℕ) : ℕ :=
  if m = 2 then (if isLeapYear y then 29 else 28)
  else if m = 4 ∨ m = 6 ∨ m = 9 ∨ m = 11 then 30
  else 31

/-- Validation and assembly of the three `%Y-%m-%d` components: `%Y` matches
up to four digits, `%m`/`%d` up to two, with calendar range validation. -/
def dateOfComponents (ys ms ds : List Char) : Option Date :=
  if ys ≠ [] ∧ ys.length ≤ 4 ∧ ys.all Char.isDigit ∧
     ms ≠ [] ∧ ms.length ≤ 2 ∧ ms.all Char.isDigit ∧
     ds ≠ [] ∧ ds.length ≤ 2 ∧ ds.all Char.isDigit then
    if 1 ≤ digitsToNat ys ∧ 1 ≤ digitsToNat ms ∧ digitsToNat ms ≤ 12 ∧
       1 ≤ digitsToNat ds ∧ digitsToNat ds ≤ daysInMonth (digitsToNat ys) (digitsToNat ms) then
      some ⟨digitsToNat ys, digitsToNat ms, digitsToNat ds⟩
    else none
  else none

/-- Model of `datetime.strptime(s, "%Y-%m-%d")`: three dash-separated digit
groups, validated by `dateOfComponents`; any mismatch raises `ValueError`,
i.e. yields `none`. -/
def parseDate (s : String) : Option Date :=
  match s.toList.dropWhile (fun c => c ≠ '-') with
  | '-' :: r1 =>
    match r1.dropWhile (fun c => c ≠ '-') with
    | '-' :: ds =>
      dateOfComponents (s.toList.takeWhile (fun c => c ≠ '-'))
        (r1.takeWhile (fun c => c ≠ '-')) ds
    | _ => none
  | _ => none

/-- Two-digit zero-padded field, as `strftime` renders `%m` and `%d`. -/
def pad2 (n : ℕ) : List Char := if n < 10 then '0' :: natDigits n else natDigits n

/-- Model of `d.strftime("%Y-%m-%d")`. -/
def formatDate (d : Date) : String :=
  String.mk (natDigits d.year ++ '-' :: (pad2 d.month ++ '-' :: pad2 d.day))

/-- Strict chronological order on serialized date strings: both parse and
the first denotes the earlier date. -/
def dateStrLt (a b : String) : Bool :=
  match parseDate a, parseDate b with
  | some x, some y => Date.blt x y
  | _, _ => false

/-- The inner `"Global Quote"` object of a provider quote response; the five
fields the code reads, as the raw strings the provider sends. -/
structure GlobalQuoteFields where
  price : String
  change : String
  changePercent : String
  volume : String
  latestTradingDay : String
  deriving DecidableEq, Repr

/-- A provider quote response: the `"Global Quote"` top-level key may be
absent (error payloads, invalid symbols). -/
structure QuoteResponse where
  globalQuote : Option GlobalQuoteFields
  deriving DecidableEq, Repr

/-- The dict `get_stock_quote` returns on success. Field types mirror the
code: `price`/`change` through `float(...)`, `volume` through `int(...)`,
`change_percent` through `.rstrip("%")` only — it stays a string. -/
structure Quote where
  symbol : String
  price : ℚ
  change : ℚ
  change_percent : String
  volume : ℤ
  latest_trading_day : String
  deriving DecidableEq, Repr

/-- `FinancialDataService.get_stock_quote`, given the decoded JSON body.
Any failure — missing `"Global Quote"` key, or a field `float`/`int` cannot
parse (exception caught by the blanket handler) — returns `None`. -/
def get_stock_quote (symbol : String) (data : QuoteResponse) : Option Quote :=
  match data.globalQuote with
  | none => none
  | some q =>
    match parseFloat q.price, parseFloat q.change, parseInt q.volume with
    | some p, some c, some v =>
      some ⟨symbol, p, c, rstripPercent q.changePercent, v, q.latestTradingDay⟩
    | _, _, _ => none

/-- A provider series response: either top-level series key may be absent;
records are `(dateKey, closePriceString)` pairs in the provider's own
key order. -/
structure SeriesResponse where
  daily : Option (List (String × String))
  monthly : Option (List (String × String))
  deriving DecidableEq, Repr

/-- The dict `get_historical_data` returns on success. -/
structure HistoricalData where
  dates : List String
  prices : List ℚ
  deriving DecidableEq, Repr

/-- The record-parsing loop body of `get_historical_data`: `strptime` on the
date key and `float` on the close price. The first failing record raises
out of the loop into the blanket handler, so any bad record yields `none`
for the whole batch. -/
def parseRecords : List (String × String) → Option (List (Date × ℚ))
  | [] => some []
  | (d, c) :: rest =>
    match parseDate d, parseFloat c with
    | some dd, some cc => (parseRecords rest).map (fun l => (dd, cc) :: l)
    | _, _ => none

/-- The `periods` dict literal of `get_historical_data`. -/
def periodsMap : List (String × String) :=
  [("1week", "TIME_SERIES_DAILY"), ("1month", "TIME_SERIES_DAILY"),
   ("3months", "TIME_SERIES_DAILY"), ("1year", "TIME_SERIES_MONTHLY")]

/-- `periods.get(period, "TIME_SERIES_DAILY")`. -/
def seriesRequestFunction (period : String) : String :=
  (periodsMap.lookup period).getD "TIME_SERIES_DAILY"

/-- The request parameters `get_historical_data` sends (API key omitted). -/
structure SeriesParams where
  function : String
  symbol : String
  outputsize : String
  deriving DecidableEq, Repr

/-- The `params` dict built by `get_historical_data`; `period` defaults to
`"1month"` exactly as in the Python signature. -/
def seriesParams (symbol : String) (period : String := "1month") : SeriesParams :=
  ⟨seriesRequestFunction period, symbol, "compact"⟩

/-- The series-processing block of `get_historical_data`: take the first 30
records in response order, parse each (any failure aborts the whole fetch),
reverse, and serialize dates back with `strftime`. -/
def processTimeSeries (ts : List (String × String)) : Option HistoricalData :=
  match parseRecords (ts.take 30) with
  | none => none
  | some pairs =>
    some ⟨((pairs.map Prod.fst).reverse).map formatDate, (pairs.map Prod.snd).reverse⟩

/-- `FinancialDataService.get_historical_data`, given the decoded JSON body.
Mirrors the key branching (`"Time Series (Daily)"` first, then
`"Monthly Time Series"`), the truthiness test `if time_series:` (an empty
mapping also yields `None`), and the parse loop. -/
def get_historical_data (symbol : String) (resp : SeriesResponse)
    (period : String := "1month") : Option HistoricalData :=
  let ts : Option (List (String × String)) :=
    match resp.daily with
    | some d => some d
    | none => resp.monthly
  match ts with
  | none => none
  | some l => if l.isEmpty then none else processTimeSeries l

/-- A portfolio row (`Portfolio` model): the fields `dashboard_overview`
reads. -/
structure Holding where
  symbol : String
  quantity : ℚ
  purchase_price : ℚ
  deriving DecidableEq, Repr

/-- One entry of the `holdings` list `dashboard_overview` returns. -/
structure ValuationLine where
  symbol : String
  quantity : ℚ
  purchase_price : ℚ
  current_price : ℚ
  investment : ℚ
  current_value : ℚ
  gain_loss : ℚ
  gain_loss_percent : ℚ
  deriving DecidableEq, Repr

/-- The `portfolio_summary` object `dashboard_overview` returns. -/
structure PortfolioSummary where
  total_investment : ℚ
  current_value : ℚ
  overall_gain_loss : ℚ
  overall_gain_loss_percent : ℚ
  deriving DecidableEq, Repr

/-- The per-holding loop of `dashboard_overview`. A holding whose quote
fetch returned `None` is skipped. For a fetched holding the code divides
`gain_loss / investment` with no guard: `investment = 0` raises
`ZeroDivisionError` out of the route (modelled as `none` for the whole
request). Accumulates `total_investment`, `current_value` and the line
list. -/
def dashboardLoop (quotes : String → Option Quote) :
    List Holding → Option (ℚ × ℚ × List ValuationLine)
  | [] => some (0, 0, [])
  | h :: rest =>
    match quotes h.symbol with
    | none => dashboardLoop quotes rest
    | some q =>
      let investment := h.quantity * h.purchase_price
      let current_val := h.quantity * q.price
      let gain_loss := current_val - investment
      if investment = 0 then none
      else
        match dashboardLoop quotes rest with
        | none => none
        | some (ti, cv, lines) =>
          some (investment + ti, current_val + cv,
            ⟨h.symbol, h.quantity, h.purchase_price, q.price, investment,
             current_val, gain_loss, gain_loss / investment * 100⟩ :: lines)

/-- `dashboard_overview`: runs the valuation loop over the user's portfolio
rows (quote fetching abstracted as the `quotes` oracle), then builds the
summary; only the aggregate percent is zero-division guarded. -/
def dashboard_overview (quotes : String → Option Quote)
    (portfolios : List Holding) : Option (PortfolioSummary × List ValuationLine) :=
  match dashboardLoop quotes portfolios with
  | none => none
  | some (ti, cv, lines) =>
    some (⟨ti, cv, cv - ti, if ti > 0 then (cv - ti) / ti * 100 else 0⟩, lines)

/-- The valuation line `dashboard_overview` builds for holding `h` priced by
quote `q` (derived characterization used in theorems). -/
def mkLine (h : Holding) (q : Quote) : ValuationLine :=
  ⟨h.symbol, h.quantity, h.purchase_price, q.price,
   h.quantity * h.purchase_price, h.quantity * q.price,
   h.quantity * q.price - h.quantity * h.purchase_price,
   (h.quantity * q.price - h.quantity * h.purchase_price) /
     (h.quantity * h.purchase_price) * 100⟩

/-- The date a serialized string denotes, with a dummy default. -/
def parsedDate (s : String) : Date := (parseDate s).getD ⟨1, 1, 1⟩

/-- The ranges `parseDate` guarantees for every date it produces. -/
def Date.valid (d : Date) : Prop :=
  1 ≤ d.year ∧ d.year ≤ 9999 ∧ 1 ≤ d.month ∧ d.month ≤ 12 ∧
    1 ≤ d.day ∧ d.day ≤ daysInMonth d.year d.month

/-! Concrete fixtures used by counterexamples and witnesses. -/

/-- A quote for symbol `"X"` priced at 10. -/
def quoteX10 : Quote := ⟨"X", 10, 0, "0", 0, "2024-01-02"⟩

/-- Quote oracle resolving only the symbol `"X"`. -/
def quotesOnlyX : String → Option Quote :=
  fun s => if s = "X" then some quoteX10 else none

/-- A holding with zero cost basis: `investment = 1 * 0 = 0`. -/
def holdingZeroCost : Holding := ⟨"X", 1, 0⟩

/-- Two holdings, exactly one (`"MISSING"`) absent from `quotesOnlyX`;
the matched one has zero investment. -/
def holdingsOneMissingZero : List Holding := [⟨"X", 1, 0⟩, ⟨"MISSING", 1, 100⟩]

/-- Two holdings, exactly one (`"MISSING"`) absent from `quotesOnlyX`;
the matched one has positive investment. -/
def holdingsOneMissing : List Holding := [⟨"X", 2, 5⟩, ⟨"MISSING", 1, 100⟩]

/-- The spec's end-to-end example quote: AAPL at 150. -/
def aaplQuote : Quote := ⟨"AAPL", 150, 0, "0", 0, "2024-01-02"⟩

/-- Quote oracle resolving only `"AAPL"`. -/
def aaplQuotes : String → Option Quote :=
  fun s => if s = "AAPL" then some aaplQuote else none

/-- The spec's end-to-end example holding: 10 AAPL bought at 100. -/
def aaplHolding : Holding := ⟨"AAPL", 10, 100⟩

/-- A series with one malformed date key between two good records. -/
def seriesBadDate : List (String × String) :=
  [("2024-01-03", "101.5"), ("not-a-date", "102.0"), ("2024-01-01", "100.0")]

/-- A series with one non-numeric close price between two good records. -/
def seriesBadClose : List (String × String) :=
  [("2024-01-03", "101.5"), ("2024-01-02", "abc"), ("2024-01-01", "100.0")]

/-- Provider records in ascending (oldest-first) date order. -/
def ascRecords : List (String × String) :=
  [("2024-01-01", "100.0"), ("2024-01-02", "101.0")]

/-- Provider records in descending (newest-first) date order. -/
def descRecords : List (String × String) :=
  [("2024-01-02", "101.0"), ("2024-01-01", "100.0")]

/-- Quote fields whose price is not a number. -/
def malformedQuoteFields : GlobalQuoteFields :=
  ⟨"not-a-number", "1.0", "1.0%", "100", "2024-01-02"⟩

/-- Quote fields whose percent string is `"1.50%"`. -/
def percentFieldsA : GlobalQuoteFields :=
  ⟨"150.0", "1.0", "1.50%", "1000", "2024-01-02"⟩

/-- Quote fields whose percent string is `"1.5%"`. -/
def percentFieldsB : GlobalQuoteFields :=
  ⟨"150.0", "1.0", "1.5%", "1000", "2024-01-02"⟩

/-- 31 records for 2024-01-01 … 2024-01-31, in ascending date order. -/
def jan31Records : List (String × String) :=
  (List.range 31).map (fun i => (String.mk ("2024-01-".toList ++ pad2 (i + 1)), "100.0"))

/-! Infrastructure lemmas: decimal digits and printing. -/

theorem digitVal_digitChar {n : ℕ} (h : n < 10) : digitVal (digitChar n) = n := by
  interval_cases n <;> rfl

theorem isDigit_digitChar {n : ℕ} (h : n < 10) : (digitChar n).isDigit = true := by
  interval_cases n <;> rfl

theorem digitsToNat_append_single (l : List Char) (c : Char) :
    digitsToNat (l ++ [c]) = 10 * digitsToNat l + digitVal c := by
  simp [digitsToNat, List.foldl_append]

theorem natDigitsAux_eval : ∀ fuel n, n < fuel → digitsToNat (natDigitsAux fuel n) = n := by
  intro fuel
  induction fuel with
  | zero => intro n h; omega
  | succ f ih =>
    intro n h
    by_cases h10 : n < 10
    · simp [natDigitsAux, h10, digitsToNat, digitVal_digitChar h10]
    · have hdiv : n / 10 < f := by
        have h1 : n / 10 < n := Nat.div_lt_self (by omega) (by omega)
        omega
      simp [natDigitsAux, h10, digitsToNat_append_single, ih _ hdiv,
        digitVal_digitChar (Nat.mod_lt n (by omega))]
      omega

theorem digitsToNat_natDigits (n : ℕ) : digitsToNat (natDigits n) = n :=
  natDigitsAux_eval (n + 1) n (Nat.lt_succ_self n)

theorem natDigitsAux_all_digit : ∀ fuel n, ((natDigitsAux fuel n).all Char.isDigit) = true := by
  intro fuel
  induction fuel with
  | zero => intro n; rfl
  | succ f ih =>
    intro n
    by_cases h10 : n < 10
    · simp [natDigitsAux, h10, isDigit_digitChar h10]
    · simp [natDigitsAux, h10, List.all_append, ih (n / 10),
        isDigit_digitChar (Nat.mod_lt n (by omega))]

theorem natDigits_all_digit (n : ℕ) : ((natDigits n).all Char.isDigit) = true :=
  natDigitsAux_all_digit (n + 1) n

theorem natDigitsAux_ne_nil : ∀ fuel n, 0 < fuel → natDigitsAux fuel n ≠ [] := by
  intro fuel n h
  match fuel, h with
  | f + 1, _ =>
    by_cases h10 : n < 10 <;> simp [natDigitsAux, h10]

theorem natDigits_ne_nil (n : ℕ) : natDigits n ≠ [] :=
  natDigitsAux_ne_nil (n + 1) n (Nat.succ_pos n)

theorem natDigitsAux_length_le : ∀ fuel n k, n < 10 ^ k → 1 ≤ k →
    (natDigitsAux fuel n).length ≤ k := by
  intro fuel
  induction fuel with
  | zero => intro n k _ _; simp [natDigitsAux]
  | succ f ih =>
    intro n k hn hk
    by_cases h10 : n < 10
    · simpa [natDigitsAux, h10] using hk
    · match k, hk with
      | k' + 1, _ =>
        have hk' : 1 ≤ k' := by
          by_contra hc
          have : k' = 0 := by omega
          subst this
          simp [pow_succ, pow_zero] at hn
          omega
        have hdiv : n / 10 < 10 ^ k' := by
          apply Nat.div_lt_of_lt_mul
          have hpow : (10 : ℕ) ^ (k' + 1) = 10 ^ k' * 10 := pow_succ 10 k'
          omega
        simp only [natDigitsAux, h10, if_false, List.length_append, List.length_cons,
          List.length_nil]
        have := ih (n / 10) k' hdiv hk'
        omega

theorem natDigits_length_le {n k : ℕ} (hn : n < 10 ^ k) (hk : 1 ≤ k) :
    (natDigits n).length ≤ k :=
  natDigitsAux_length_le (n + 1) n k hn hk

theorem digitVal_lt_ten {c : Char} (h : c.isDigit = true) : digitVal c < 10 := by
  simp [Char.isDigit] at h
  obtain ⟨h1, h2⟩ := h
  have h3 : c.val.toNat ≤ 57 := UInt32.toNat_le_of_le (by decide) h2
  simp [digitVal, Char.toNat]
  omega

theorem isDigit_ne_dash {c : Char} (h : c.isDigit = true) : (decide (c ≠ '-')) = true := by
  simp only [decide_eq_true_eq]
  intro he
  subst he
  simp [Char.isDigit] at h

theorem foldl_digits_acc (l : List Char) : ∀ a : ℕ,
    l.foldl (fun acc c => 10 * acc + digitVal c) a = a * 10 ^ l.length + digitsToNat l := by
  induction l with
  | nil => intro a; simp [digitsToNat]
  | cons c cs ih =>
    intro a
    have hc : digitsToNat (c :: cs) = (10 * 0 + digitVal c) * 10 ^ cs.length + digitsToNat cs := by
      simp only [digitsToNat, List.foldl_cons]
      rw [ih]
      rfl
    simp only [List.foldl_cons, List.length_cons]
    rw [ih, hc, pow_succ]
    ring

theorem digitsToNat_cons (c : Char) (l : List Char) :
    digitsToNat (c :: l) = digitVal c * 10 ^ l.length + digitsToNat l := by
  simp only [digitsToNat, List.foldl_cons]
  rw [foldl_digits_acc]
  ring_nf
  rfl

theorem digitsToNat_lt_pow {l : List Char} (h : (l.all Char.isDigit) = true) :
    digitsToNat l < 10 ^ l.length := by
  induction l with
  | nil => simp [digitsToNat]
  | cons c cs ih =>
    simp only [List.all_cons, Bool.and_eq_true] at h
    have hc := digitVal_lt_ten h.1
    have hcs := ih h.2
    rw [digitsToNat_cons, List.length_cons, pow_succ]
    have hP : 0 < 10 ^ cs.length := pow_pos (by norm_num) _
    nlinarith

theorem digitsToNat_zero_cons (l : List Char) : digitsToNat ('0' :: l) = digitsToNat l := rfl

theorem natDigits_of_lt_ten {n : ℕ} (h : n < 10) : natDigits n = [digitChar n] := by
  simp [natDigits, natDigitsAux, h]

theorem pad2_all_digit (n : ℕ) : ((pad2 n).all Char.isDigit) = true := by
  by_cases h : n < 10 <;> simp [pad2, h, natDigits_all_digit]

theorem pad2_ne_nil (n : ℕ) : pad2 n ≠ [] := by
  by_cases h : n < 10 <;> simp [pad2, h, natDigits_ne_nil]

theorem digitsToNat_pad2 (n : ℕ) : digitsToNat (pad2 n) = n := by
  by_cases h : n < 10 <;>
    simp [pad2, h, digitsToNat_zero_cons, digitsToNat_natDigits]

theorem pad2_length_le {n : ℕ} (h : n ≤ 99) : (pad2 n).length ≤ 2 := by
  by_cases h10 : n < 10
  · simp [pad2, h10, natDigits_of_lt_ten h10]
  · have : (natDigits n).length ≤ 2 := natDigits_length_le (by omega) (by omega)
    simp [pad2, h10]
    omega

theorem takeWhile_append_cons {α : Type} (p : α → Bool) :
    ∀ a : List α, (∀ x ∈ a, p x = true) → ∀ (y : α), p y = false → ∀ r : List α,
      ((a ++ y :: r).takeWhile p = a ∧ (a ++ y :: r).dropWhile p = y :: r) := by
  intro a
  induction a with
  | nil => intro _ y hy r; simp [List.takeWhile, List.dropWhile, hy]
  | cons x xs ih =>
    intro ha y hy r
    have hx : p x = true := ha x (by simp)
    have hxs : ∀ z ∈ xs, p z = true := fun z hz => ha z (by simp [hz])
    obtain ⟨h1, h2⟩ := ih hxs y hy r
    constructor
    · simp [List.takeWhile_cons, hx, h1]
    · simp [List.dropWhile_cons, hx, h2]

theorem daysInMonth_le_31 (y m : ℕ) : daysInMonth y m ≤ 31 := by
  unfold daysInMonth
  split_ifs <;> omega

theorem dateOfComponents_valid {ys ms ds : List Char} {d : Date}
    (h : dateOfComponents ys ms ds = some d) : d.valid := by
  unfold dateOfComponents at h
  split_ifs at h with h1 h2
  obtain ⟨_, hlen, hdig, _⟩ := h1
  obtain ⟨hy, hmm, hm12, hd, hdm⟩ := h2
  injection h with h
  subst h
  have hbound := digitsToNat_lt_pow hdig
  have hle := Nat.pow_le_pow_right (by norm_num : 1 ≤ 10) hlen
  have hy2 : digitsToNat ys ≤ 9999 := by
    have : (10 : ℕ) ^ 4 = 10000 := by norm_num
    omega
  exact ⟨hy, hy2, hmm, hm12, hd, hdm⟩

theorem parseDate_formatDate {d : Date} (h : d.valid) : parseDate (formatDate d) = some d := by
  obtain ⟨hy1, hy2, hm1, hm2, hd1, hd2⟩ := h
  have hday99 : d.day ≤ 99 := le_trans hd2 (le_trans (daysInMonth_le_31 d.year d.month) (by omega))
  have hAdig := natDigits_all_digit d.year
  have hBdig := pad2_all_digit d.month
  have hCdig := pad2_all_digit d.day
  have hA : ∀ x ∈ natDigits d.year, (decide (x ≠ '-')) = true := by
    intro x hx
    rw [List.all_eq_true] at hAdig
    exact isDigit_ne_dash (hAdig x hx)
  have hB : ∀ x ∈ pad2 d.month, (decide (x ≠ '-')) = true := by
    intro x hx
    rw [List.all_eq_true] at hBdig
    exact isDigit_ne_dash (hBdig x hx)
  have hdash : (decide (('-' : Char) ≠ '-')) = false := by simp
  have s1 := takeWhile_append_cons (fun c => decide (c ≠ '-')) (natDigits d.year) hA '-' hdash
    (pad2 d.month ++ '-' :: pad2 d.day)
  have s2 := takeWhile_append_cons (fun c => decide (c ≠ '-')) (pad2 d.month) hB '-' hdash
    (pad2 d.day)
  unfold parseDate formatDate
  have hto : (String.mk (natDigits d.year ++ '-' :: (pad2 d.month ++ '-' :: pad2 d.day))).toList =
      natDigits d.year ++ '-' :: (pad2 d.month ++ '-' :: pad2 d.day) := rfl
  rw [hto]
  simp only [s1.1, s1.2, s2.1, s2.2]
  unfold dateOfComponents
  have hc1 : natDigits d.year ≠ [] ∧ (natDigits d.year).length ≤ 4 ∧
      ((natDigits d.year).all Char.isDigit) = true ∧
      pad2 d.month ≠ [] ∧ (pad2 d.month).length ≤ 2 ∧ ((pad2 d.month).all Char.isDigit) = true ∧
      pad2 d.day ≠ [] ∧ (pad2 d.day).length ≤ 2 ∧ ((pad2 d.day).all Char.isDigit) = true :=
    ⟨natDigits_ne_nil _, natDigits_length_le (by omega) (by norm_num), natDigits_all_digit _,
     pad2_ne_nil _, pad2_length_le (by omega), pad2_all_digit _,
     pad2_ne_nil _, pad2_length_le hday99, pad2_all_digit _⟩
  rw [if_pos hc1]
  simp only [digitsToNat_natDigits, digitsToNat_pad2]
  rw [if_pos ⟨hy1, hm1, hm2, hd1, hd2⟩]

theorem parseDate_valid {s : String} {d : Date} (h : parseDate s = some d) : d.valid := by
  unfold parseDate at h
  split at h
  · split at h
    · exact dateOfComponents_valid h
    · exact absurd h (by simp)
  · exact absurd h (by simp)

theorem dateStrLt_formatDate {a b : Date} (ha : a.valid) (hb : b.valid) :
    dateStrLt (formatDate a) (formatDate b) = Date.blt a b := by
  unfold dateStrLt
  rw [parseDate_formatDate ha, parseDate_formatDate hb]

/-! Behaviour of the series record-parsing loop. -/

theorem parseRecords_none_of_bad : ∀ l : List (String × String),
    (∃ r ∈ l, parseDate r.1 = none ∨ parseFloat r.2 = none) → parseRecords l = none := by
  intro l
  induction l with
  | nil =>
    rintro ⟨r, hr, _⟩
    simp at hr
  | cons x xs ih =>
    rintro ⟨r, hr, hbad⟩
    obtain ⟨xd, xc⟩ := x
    rcases List.mem_cons.mp hr with he | hm
    · subst he
      rcases hbad with h | h
      · cases hf : parseFloat xc <;> simp [parseRecords, h, hf]
      · cases hd : parseDate xd <;> simp [parseRecords, h, hd]
    · have hxs := ih ⟨r, hm, hbad⟩
      cases hd : parseDate xd <;> cases hf : parseFloat xc <;>
        simp [parseRecords, hd, hf, hxs]

theorem parseRecords_all_some : ∀ l : List (String × String),
    (∀ r ∈ l, (parseDate r.1).isSome = true ∧ (parseFloat r.2).isSome = true) →
    parseRecords l = some (l.map (fun r => (parsedDate r.1, (parseFloat r.2).getD 0))) := by
  intro l
  induction l with
  | nil => intro _; rfl
  | cons x xs ih =>
    intro h
    obtain ⟨h1, h2⟩ := h x (by simp)
    obtain ⟨dd, hdd⟩ := Option.isSome_iff_exists.mp h1
    obtain ⟨cc, hcc⟩ := Option.isSome_iff_exists.mp h2
    have hxs : ∀ r ∈ xs, (parseDate r.1).isSome = true ∧ (parseFloat r.2).isSome = true :=
      fun r hr => h r (by simp [hr])
    obtain ⟨xd, xc⟩ := x
    simp only at hdd hcc
    simp [parseRecords, hdd, hcc, ih hxs, parsedDate]

theorem get_historical_data_none_of_bad (symbol : String) (ts : List (String × String))
    (m : Option (List (String × String))) (period : String)
    (hbad : ∃ r ∈ ts.take 30, parseDate r.1 = none ∨ parseFloat r.2 = none) :
    get_historical_data symbol ⟨some ts, m⟩ period = none := by
  have hnil : ts ≠ [] := by
    rintro rfl
    obtain ⟨r, hr, _⟩ := hbad
    simp at hr
  simp only [get_historical_data, processTimeSeries]
  rw [parseRecords_none_of_bad _ hbad]
  simp [List.isEmpty_iff, hnil]

theorem get_historical_data_all_good (symbol : String) (ts : List (String × String))
    (m : Option (List (String × String))) (period : String)
    (hne : ts ≠ [])
    (hparse : ∀ r ∈ ts.take 30, (parseDate r.1).isSome = true ∧ (parseFloat r.2).isSome = true) :
    get_historical_data symbol ⟨some ts, m⟩ period =
      some ⟨(((ts.take 30).map (fun r => parsedDate r.1)).reverse).map formatDate,
            ((ts.take 30).map (fun r => (parseFloat r.2).getD 0)).reverse⟩ := by
  simp only [get_historical_data, processTimeSeries]
  rw [parseRecords_all_some _ hparse]
  simp [List.isEmpty_iff, hne, List.map_map, Function.comp]
  exact ⟨rfl, rfl⟩

/-! Behaviour of the dashboard valuation loop. -/

theorem dashboardLoop_sound (quotes : String → Option Quote) :
    ∀ (holdings : List Holding) (ti cv : ℚ) (lines : List ValuationLine),
      dashboardLoop quotes holdings = some (ti, cv, lines) →
      ((∀ l ∈ lines, l.investment = l.quantity * l.purchase_price ∧
          l.current_value = l.quantity * l.current_price ∧
          l.gain_loss = l.current_value - l.investment) ∧
       ti = (lines.map ValuationLine.investment).sum ∧
       cv = (lines.map ValuationLine.current_value).sum) := by
  intro holdings
  induction holdings with
  | nil =>
    intro ti cv lines h
    simp only [dashboardLoop, Option.some_inj, Prod.mk.injEq] at h
    obtain ⟨rfl, rfl, rfl⟩ := h
    simp
  | cons hh rest ih =>
    intro ti cv lines h
    cases hq : quotes hh.symbol with
    | none =>
      simp only [dashboardLoop, hq] at h
      exact ih ti cv lines h
    | some q =>
      simp only [dashboardLoop, hq] at h
      split_ifs at h with hz
      · cases hrec : dashboardLoop quotes rest with
        | none => rw [hrec] at h; simp at h
        | some t =>
          obtain ⟨ti', cv', lines'⟩ := t
          rw [hrec] at h
          simp only [Option.some_inj, Prod.mk.injEq] at h
          obtain ⟨rfl, rfl, rfl⟩ := h
          obtain ⟨ihall, ihti, ihcv⟩ := ih ti' cv' lines' hrec
          refine ⟨?_, ?_, ?_⟩
          · intro l hl
            rcases List.mem_cons.mp hl with he | hm
            · subst he
              refine ⟨rfl, rfl, rfl⟩
            · exact ihall l hm
          · simp [ihti]
          · simp [ihcv]

theorem dashboardLoop_eq (quotes : String → Option Quote) :
    ∀ holdings : List Holding,
      (∀ h ∈ holdings, ((quotes h.symbol).isSome = true) → h.quantity * h.purchase_price ≠ 0) →
      dashboardLoop quotes holdings =
        some ((((holdings.filterMap (fun h => (quotes h.symbol).map (mkLine h))).map
                 ValuationLine.investment).sum,
               ((holdings.filterMap (fun h => (quotes h.symbol).map (mkLine h))).map
                 ValuationLine.current_value).sum,
               holdings.filterMap (fun h => (quotes h.symbol).map (mkLine h)))) := by
  intro holdings
  induction holdings with
  | nil => intro _; rfl
  | cons hh rest ih =>
    intro hnz
    have hrest : ∀ h ∈ rest, ((quotes h.symbol).isSome = true) → h.quantity * h.purchase_price ≠ 0 :=
      fun h hm => hnz h (by simp [hm])
    cases hq : quotes hh.symbol with
    | none =>
      simp only [dashboardLoop, hq]
      rw [ih hrest]
      simp [List.filterMap_cons, hq]
    | some q =>
      have hz : hh.quantity * hh.purchase_price ≠ 0 := hnz hh (by simp) (by simp [hq])
      simp only [dashboardLoop, hq]
      rw [if_neg hz, ih hrest]
      simp only [Option.some_inj, Prod.mk.injEq, List.filterMap_cons, hq, Option.map_some]
      refine ⟨?_, ?_, rfl⟩
      · simp [mkLine]
      · simp [mkLine]

theorem length_filterMap_quotes (quotes : String → Option Quote) :
    ∀ holdings : List Holding,
      (holdings.filterMap (fun h => (quotes h.symbol).map (mkLine h))).length +
        holdings.countP (fun h => (quotes h.symbol).isNone) = holdings.length := by
  intro holdings
  induction holdings with
  | nil => rfl
  | cons hh rest ih =>
    cases hq : quotes hh.symbol with
    | none => simp [List.filterMap_cons, List.countP_cons, hq]; omega
    | some q => simp [List.filterMap_cons, List.countP_cons, hq]; omega

theorem sum_investment_filterMap (quotes : String → Option Quote) :
    ∀ holdings : List Holding,
      ((holdings.filterMap (fun h => (quotes h.symbol).map (mkLine h))).map
        ValuationLine.investment).sum =
      ((holdings.filter (fun h => (quotes h.symbol).isSome)).map
        (fun h => h.quantity * h.purchase_price)).sum := by
  intro holdings
  induction holdings with
  | nil => rfl
  | cons hh rest ih =>
    cases hq : quotes hh.symbol with
    | none => simp [List.filterMap_cons, List.filter_cons, hq, ih]
    | some q => simp [List.filterMap_cons, List.filter_cons, hq, ih, mkLine]

theorem sum_current_value_filterMap (quotes : String → Option Quote) :
    ∀ holdings : List Holding,
      ((holdings.filterMap (fun h => (quotes h.symbol).map (mkLine h))).map
        ValuationLine.current_value).sum =
      (holdings.filterMap (fun h => (quotes h.symbol).map (fun q => h.quantity * q.price))).sum := by
  intro holdings
  induction holdings with
  | nil => rfl
  | cons hh rest ih =>
    cases hq : quotes hh.symbol with
    | none => simp [List.filterMap_cons, hq, ih]
    | some q => simp [List.filterMap_cons, hq, ih, mkLine]

theorem dateStrLt_format_parsed {a b : String} (h : dateStrLt a b = true) :
    dateStrLt (formatDate (parsedDate a)) (formatDate (parsedDate b)) = true := by
  unfold dateStrLt at h
  cases hA : parseDate a with
  | none => rw [hA] at h; simp at h
  | some x =>
    cases hB : parseDate b with
    | none => rw [hA, hB] at h; simp at h
    | some y =>
      rw [hA, hB] at h
      have hpa : parsedDate a = x := by simp [parsedDate, hA]
      have hpb : parsedDate b = y := by simp [parsedDate, hB]
      rw [hpa, hpb, dateStrLt_formatDate (parseDate_valid hA) (parseDate_valid hB)]
      exact h

/-! Claim theorems. -/

/-- Claim C1: the code contradicts the claimed per-holding zero-division
guard. For the holding `{X, quantity 1, purchasePrice 0}` with a matching
quote priced 10, `investment = 0` and the unguarded division
`gain_loss / investment` raises `ZeroDivisionError`, so the whole request
fails (`none`) instead of yielding `gainLossPercent = 0`; only the
aggregate percent is guarded. -/
theorem C1_zero_investment_holding_crashes :
    dashboard_overview quotesOnlyX [holdingZeroCost] = none := by
  have hq : quotesOnlyX "X" = some quoteX10 := rfl
  simp [dashboard_overview, dashboardLoop, holdingZeroCost, hq]

/-- Claim C2 counterexample: one malformed record (bad date key, or
non-numeric close) makes the whole series fetch return `None`; it is not
skipped, although the series without the bad record is representable. -/
theorem C2_counterexample :
    get_historical_data "IBM" ⟨some seriesBadDate, none⟩ "1month" = none ∧
    get_historical_data "IBM" ⟨some seriesBadClose, none⟩ "1month" = none ∧
    get_historical_data "IBM" ⟨some [("2024-01-03", "101.5"), ("2024-01-01", "100.0")], none⟩
        "1month" = some ⟨["2024-01-01", "2024-01-03"], [100, 203 / 2]⟩ := by
  refine ⟨rfl, rfl, ?_⟩
  have h : get_historical_data "IBM"
      ⟨some [("2024-01-03", "101.5"), ("2024-01-01", "100.0")], none⟩ "1month" =
      some ⟨["2024-01-01", "2024-01-03"],
            [ratOfParts false 100 0 1, ratOfParts false 101 5 1]⟩ := rfl
  rw [h]
  norm_num [ratOfParts]

/-- Claim C2 amended: a single record with a malformed date string or a
non-numeric close price among the first 30 records makes
`get_historical_data` fail for the whole series (return `none`); no
partial series is ever produced. -/
theorem C2_bad_record_fails_series (symbol : String) (ts : List (String × String))
    (m : Option (List (String × String))) (period : String)
    (hbad : ∃ r ∈ ts.take 30, parseDate r.1 = none ∨ parseFloat r.2 = none) :
    get_historical_data symbol ⟨some ts, m⟩ period = none :=
  get_historical_data_none_of_bad symbol ts m period hbad

/-- Witness for C2 amended at the concrete malformed-date series. -/
theorem C2_bad_record_fails_series_witness :
    get_historical_data "IBM" ⟨some seriesBadDate, none⟩ "3months" = none :=
  C2_bad_record_fails_series "IBM" seriesBadDate none "3months"
    ⟨("not-a-date", "102.0"), by decide, Or.inl (by decide)⟩

/-- Claim C6: the window-to-granularity mapping is fixed: `1year` requests
the monthly series endpoint, and `1week`, `1month`, `3months` the daily
one. -/
theorem C6_window_granularity : ∀ s : String,
    (seriesParams s "1year").function = "TIME_SERIES_MONTHLY" ∧
    (seriesParams s "1week").function = "TIME_SERIES_DAILY" ∧
    (seriesParams s "1month").function = "TIME_SERIES_DAILY" ∧
    (seriesParams s "3months").function = "TIME_SERIES_DAILY" := by
  intro s
  exact ⟨rfl, rfl, rfl, rfl⟩

/-- Claim C7 counterexample: a response missing the expected top-level key
yields the same undifferentiated `none` as a malformed-field response —
there is no tagged `UnexpectedShape` failure distinguishable from
`MalformedField` or `Unavailable`. -/
theorem C7_counterexample :
    get_stock_quote "X" ⟨none⟩ = none ∧
    get_stock_quote "X" ⟨some malformedQuoteFields⟩ = none ∧
    get_stock_quote "X" ⟨none⟩ = get_stock_quote "X" ⟨some malformedQuoteFields⟩ ∧
    get_historical_data "X" ⟨none, none⟩ "1month" = none :=
  ⟨rfl, rfl, rfl, rfl⟩

/-- Claim C7 amended: when the expected top-level key is absent (the
`"Global Quote"` object, or both series keys), the operation returns `None`
and never raises; `None` is the single failure value shared with every
other failure mode, so the kinds are not distinguishable. -/
theorem C7_missing_key_returns_none :
    (∀ (s : String) (r : QuoteResponse), r.globalQuote = none → get_stock_quote s r = none) ∧
    (∀ (s : String) (r : SeriesResponse) (p : String), r.daily = none → r.monthly = none →
      get_historical_data s r p = none) := by
  constructor
  · intro s r h
    simp [get_stock_quote, h]
  · intro s r p h1 h2
    simp [get_historical_data, h1, h2]

/-- Witness for C7 amended at concrete empty responses. -/
theorem C7_missing_key_returns_none_witness :
    get_stock_quote "MSFT" ⟨none⟩ = none ∧
    get_historical_data "MSFT" ⟨none, none⟩ "1week" = none :=
  ⟨C7_missing_key_returns_none.1 "MSFT" ⟨none⟩ rfl,
   C7_missing_key_returns_none.2 "MSFT" ⟨none, none⟩ "1week" rfl rfl⟩

/-- Claim C8 counterexample: `change_percent` is the provider's percent
string with trailing `%` stripped, still a string: the numerically equal
percent strings `"1.50%"` and `"1.5%"` produce different field values, so
the field is not the parsed decimal number. -/
theorem C8_counterexample :
    (get_stock_quote "X" ⟨some percentFieldsA⟩).map Quote.change_percent = some "1.50" ∧
    (get_stock_quote "X" ⟨some percentFieldsB⟩).map Quote.change_percent = some "1.5" ∧
    ("1.50" : String) ≠ "1.5" ∧
    parseFloat "1.50" = parseFloat "1.5" := by
  refine ⟨rfl, rfl, by decide, ?_⟩
  have h1 : parseFloat "1.50" = some (ratOfParts false 1 50 2) := rfl
  have h2 : parseFloat "1.5" = some (ratOfParts false 1 5 1) := rfl
  rw [h1, h2]
  norm_num [ratOfParts]

/-- Claim C8 amended: for every successful quote fetch, `change_percent`
equals the provider's percent field with all trailing `%` characters
stripped, kept as an unparsed string. -/
theorem C8_change_percent_is_stripped_string :
    ∀ (s : String) (fields : GlobalQuoteFields) (q : Quote),
      get_stock_quote s ⟨some fields⟩ = some q →
      q.change_percent = rstripPercent fields.changePercent := by
  intro s fields q h
  simp only [get_stock_quote] at h
  cases hp : parseFloat fields.price <;> rw [hp] at h
  · simp at h
  · cases hc : parseFloat fields.change <;> rw [hc] at h
    · simp at h
    · cases hv : parseInt fields.volume <;> rw [hv] at h
      · simp at h
      · injection h with h
        subst h
        rfl

/-- Witness for C8 amended at the concrete `"1.50%"` response. -/
theorem C8_change_percent_is_stripped_string_witness :
    (⟨"X", ratOfParts false 150 0 1, ratOfParts false 1 0 1, "1.50", intOfParts false 1000,
       "2024-01-02"⟩ : Quote).change_percent = rstripPercent percentFieldsA.changePercent :=
  C8_change_percent_is_stripped_string "X" percentFieldsA
    ⟨"X", ratOfParts false 150 0 1, ratOfParts false 1 0 1, "1.50", intOfParts false 1000,
     "2024-01-02"⟩ rfl

/-- Claim C10: any period string other than the four recognized ones falls
back to the daily endpoint, and the period parameter defaults to
`"1month"` when omitted (both for the request built and for the whole
fetch function). -/
theorem C10_unknown_period_daily_default_1month :
    (∀ period : String, period ∉ ["1week", "1month", "3months", "1year"] →
      seriesRequestFunction period = "TIME_SERIES_DAILY") ∧
    (∀ s : String, seriesParams s = seriesParams s "1month") ∧
    (∀ (s : String) (resp : SeriesResponse),
      get_historical_data s resp = get_historical_data s resp "1month") := by
  refine ⟨?_, fun s => rfl, fun s resp => rfl⟩
  intro p hp
  simp only [List.mem_cons, not_or] at hp
  obtain ⟨h1, h2, h3, h4, _⟩ := hp
  have e1 : (p == "1week") = false := beq_eq_false_iff_ne.mpr h1
  have e2 : (p == "1month") = false := beq_eq_false_iff_ne.mpr h2
  have e3 : (p == "3months") = false := beq_eq_false_iff_ne.mpr h3
  have e4 : (p == "1year") = false := beq_eq_false_iff_ne.mpr h4
  simp [seriesRequestFunction, periodsMap, List.lookup, e1, e2, e3, e4]

/-- Witness for C10 at the concrete unrecognized period `"2years"`. -/
theorem C10_unknown_period_daily_default_1month_witness :
    ("2years" : String) ∉ ["1week", "1month", "3months", "1year"] ∧
    seriesRequestFunction "2years" = "TIME_SERIES_DAILY" :=
  ⟨by decide, C10_unknown_period_daily_default_1month.1 "2years" (by decide)⟩

/-- Claim C3: whenever `dashboard_overview` succeeds, every line satisfies
`investment = quantity * purchasePrice`, `currentValue = quantity *
currentPrice`, `gainLoss = currentValue - investment`; the summary sums
the lines and `overallGainLoss = currentValue - totalInvestment`; and on
the spec's end-to-end example (10 AAPL bought at 100, quoted 150) the
result is investment 1000, current value 1500, gain 500, percent 50, with
the summary equal to the single line's values. -/
theorem C3_valuation_arithmetic :
    (∀ (quotes : String → Option Quote) (holdings : List Holding)
       (s : PortfolioSummary) (lines : List ValuationLine),
       dashboard_overview quotes holdings = some (s, lines) →
       ((∀ l ∈ lines, l.investment = l.quantity * l.purchase_price ∧
           l.current_value = l.quantity * l.current_price ∧
           l.gain_loss = l.current_value - l.investment) ∧
        s.total_investment = (lines.map ValuationLine.investment).sum ∧
        s.current_value = (lines.map ValuationLine.current_value).sum ∧
        s.overall_gain_loss = s.current_value - s.total_investment)) ∧
    dashboard_overview aaplQuotes [aaplHolding] =
      some (⟨1000, 1500, 500, 50⟩, [⟨"AAPL", 10, 100, 150, 1000, 1500, 500, 50⟩]) := by
  constructor
  · intro quotes holdings s lines h
    simp only [dashboard_overview] at h
    cases hLoop : dashboardLoop quotes holdings with
    | none => rw [hLoop] at h; simp at h
    | some t =>
      obtain ⟨ti, cv, lines'⟩ := t
      rw [hLoop] at h
      simp only [Option.some_inj, Prod.mk.injEq] at h
      obtain ⟨hs, hl⟩ := h
      obtain ⟨hall, hti, hcv⟩ := dashboardLoop_sound quotes holdings ti cv lines' hLoop
      subst hs
      subst hl
      exact ⟨hall, hti, hcv, rfl⟩
  · have hq : aaplQuotes "AAPL" = some aaplQuote := rfl
    norm_num [dashboard_overview, dashboardLoop, aaplHolding, hq, aaplQuote]

/-- Witness for C3 at the spec's end-to-end example, discharging the
success hypothesis with the concrete evaluation. -/
theorem C3_valuation_arithmetic_witness :
    (∀ l ∈ [(⟨"AAPL", 10, 100, 150, 1000, 1500, 500, 50⟩ : ValuationLine)],
        l.investment = l.quantity * l.purchase_price ∧
        l.current_value = l.quantity * l.current_price ∧
        l.gain_loss = l.current_value - l.investment) ∧
    (⟨1000, 1500, 500, 50⟩ : PortfolioSummary).total_investment =
      (([(⟨"AAPL", 10, 100, 150, 1000, 1500, 500, 50⟩ : ValuationLine)]).map
        ValuationLine.investment).sum ∧
    (⟨1000, 1500, 500, 50⟩ : PortfolioSummary).current_value =
      (([(⟨"AAPL", 10, 100, 150, 1000, 1500, 500, 50⟩ : ValuationLine)]).map
        ValuationLine.current_value).sum ∧
    (⟨1000, 1500, 500, 50⟩ : PortfolioSummary).overall_gain_loss =
      (⟨1000, 1500, 500, 50⟩ : PortfolioSummary).current_value -
        (⟨1000, 1500, 500, 50⟩ : PortfolioSummary).total_investment :=
  C3_valuation_arithmetic.1 aaplQuotes [aaplHolding] ⟨1000, 1500, 500, 50⟩
    [⟨"AAPL", 10, 100, 150, 1000, 1500, 500, 50⟩] C3_valuation_arithmetic.2

/-- Claim C4 counterexample: no sorting happens; for a provider response
whose records are in ascending date order, the returned dates are in
descending order — `points[0].date < points[1].date` fails. -/
theorem C4_counterexample :
    get_historical_data "X" ⟨some ascRecords, none⟩ "1month" =
      some ⟨["2024-01-02", "2024-01-01"],
            [ratOfParts false 101 0 1, ratOfParts false 100 0 1]⟩ ∧
    ¬ List.Chain' (fun a b => dateStrLt a b = true) ["2024-01-02", "2024-01-01"] :=
  ⟨rfl, by
    rw [List.chain'_cons]
    have h : dateStrLt "2024-01-02" "2024-01-01" = false := by decide
    simp [h]⟩

/-- Claim C4 amended: the output is the reverse of the first 30 records in
the provider's own order, so its dates are strictly ascending precisely
when the provider's records arrive strictly descending by date (newest
first); it is not ascending for arbitrary provider orderings. -/
theorem C4_ascending_for_descending_provider (symbol : String) (ts : List (String × String))
    (m : Option (List (String × String))) (period : String)
    (hne : ts ≠ [])
    (hparse : ∀ r ∈ ts.take 30, (parseDate r.1).isSome = true ∧ (parseFloat r.2).isSome = true)
    (hdesc : List.Chain' (fun a b => dateStrLt b.1 a.1 = true) (ts.take 30)) :
    ∃ out, get_historical_data symbol ⟨some ts, m⟩ period = some out ∧
      List.Chain' (fun a b => dateStrLt a b = true) out.dates := by
  refine ⟨_, get_historical_data_all_good symbol ts m period hne hparse, ?_⟩
  rw [List.chain'_map, List.chain'_reverse, List.chain'_map]
  refine hdesc.imp ?_
  intro a b hab
  exact dateStrLt_format_parsed hab

/-- Witness for C4 amended at a concrete descending two-record response. -/
theorem C4_ascending_for_descending_provider_witness :
    ∃ out, get_historical_data "X" ⟨some descRecords, none⟩ "3months" = some out ∧
      List.Chain' (fun a b => dateStrLt a b = true) out.dates :=
  C4_ascending_for_descending_provider "X" descRecords none "3months"
    (by decide) (by decide)
    (by
      show List.Chain' (fun a b => dateStrLt b.1 a.1 = true)
        [("2024-01-02", "101.0"), ("2024-01-01", "100.0")]
      rw [List.chain'_cons]
      exact ⟨by decide, by simp⟩)

/-- Claim C5 counterexample: a holdings list with exactly one symbol
absent from the quote mapping need not produce `count − 1` lines: when a
quote-matched holding has zero investment the whole valuation crashes
(`none`, the division bug of C1), producing no line sequence at all. -/
theorem C5_counterexample :
    (holdingsOneMissingZero.countP (fun h => (quotesOnlyX h.symbol).isNone)) = 1 ∧
    dashboard_overview quotesOnlyX holdingsOneMissingZero = none := by
  refine ⟨rfl, ?_⟩
  have hq : quotesOnlyX "X" = some quoteX10 := rfl
  simp [dashboard_overview, dashboardLoop, holdingsOneMissingZero, hq]

/-- Claim C5 amended: if exactly one symbol is absent from the quote
mapping and every quote-matched holding has nonzero investment (so the
unguarded division cannot crash), the valuation succeeds with
`count − 1` lines, and the summary sums only the included holdings. -/
theorem C5_skip_policy (quotes : String → Option Quote) (holdings : List Holding)
    (hone : holdings.countP (fun h => (quotes h.symbol).isNone) = 1)
    (hnz : ∀ h ∈ holdings, ((quotes h.symbol).isSome = true) →
      h.quantity * h.purchase_price ≠ 0) :
    ∃ (s : PortfolioSummary) (lines : List ValuationLine),
      dashboard_overview quotes holdings = some (s, lines) ∧
      lines.length = holdings.length - 1 ∧
      s.total_investment = ((holdings.filter (fun h => (quotes h.symbol).isSome)).map
        (fun h => h.quantity * h.purchase_price)).sum ∧
      s.current_value = (holdings.filterMap (fun h =>
        (quotes h.symbol).map (fun q => h.quantity * q.price))).sum := by
  have hloop := dashboardLoop_eq quotes holdings hnz
  have hov : dashboard_overview quotes holdings =
      some (⟨((holdings.filterMap (fun h => (quotes h.symbol).map (mkLine h))).map
                ValuationLine.investment).sum,
             ((holdings.filterMap (fun h => (quotes h.symbol).map (mkLine h))).map
                ValuationLine.current_value).sum,
             ((holdings.filterMap (fun h => (quotes h.symbol).map (mkLine h))).map
                ValuationLine.current_value).sum -
               ((holdings.filterMap (fun h => (quotes h.symbol).map (mkLine h))).map
                  ValuationLine.investment).sum,
             if ((holdings.filterMap (fun h => (quotes h.symbol).map (mkLine h))).map
                  ValuationLine.investment).sum > 0 then
               (((holdings.filterMap (fun h => (quotes h.symbol).map (mkLine h))).map
                   ValuationLine.current_value).sum -
                 ((holdings.filterMap (fun h => (quotes h.symbol).map (mkLine h))).map
                    ValuationLine.investment).sum) /
                 ((holdings.filterMap (fun h => (quotes h.symbol).map (mkLine h))).map
                    ValuationLine.investment).sum * 100
             else 0⟩,
            holdings.filterMap (fun h => (quotes h.symbol).map (mkLine h))) := by
    simp only [dashboard_overview, hloop]
  refine ⟨_, _, hov, ?_, ?_, ?_⟩
  · have hlen := length_filterMap_quotes quotes holdings
    rw [hone] at hlen
    omega
  · exact sum_investment_filterMap quotes holdings
  · exact sum_current_value_filterMap quotes holdings

/-- Witness for C5 amended: two holdings, one symbol unquoted. -/
theorem C5_skip_policy_witness :
    ∃ (s : PortfolioSummary) (lines : List ValuationLine),
      dashboard_overview quotesOnlyX holdingsOneMissing = some (s, lines) ∧
      lines.length = holdingsOneMissing.length - 1 ∧
      s.total_investment = ((holdingsOneMissing.filter
        (fun h => (quotesOnlyX h.symbol).isSome)).map
        (fun h => h.quantity * h.purchase_price)).sum ∧
      s.current_value = (holdingsOneMissing.filterMap (fun h =>
        (quotesOnlyX h.symbol).map (fun q => h.quantity * q.price))).sum :=
  C5_skip_policy quotesOnlyX holdingsOneMissing rfl
    (by
      intro h hm hs
      simp only [holdingsOneMissing, List.mem_cons, List.not_mem_nil, or_false] at hm
      rcases hm with rfl | rfl
      · norm_num
      · simp [quotesOnlyX] at hs)

/-- Claim C9 counterexample: with 31 records in ascending (oldest-first)
order, the most recent record (2024-01-31) is among the 30 most recent of
the response but absent from the returned points: the code keeps the
first 30 records in response order, not the 30 most recent. -/
theorem C9_counterexample :
    jan31Records.length = 31 ∧
    ((jan31Records.map Prod.fst).contains "2024-01-31") = true ∧
    (∀ s ∈ jan31Records.map Prod.fst, s = "2024-01-31" ∨ dateStrLt s "2024-01-31" = true) ∧
    (get_historical_data "X" ⟨some jan31Records, none⟩ "1month").map
        (fun out => out.dates.contains "2024-01-31") = some false := by
  exact ⟨rfl, rfl, by decide, rfl⟩

/-- Claim C9 amended: the fetch returns at most 30 points: exactly the
first `min N 30` records of the provider's own order, reversed (all `N`
of them when `N ≤ 30`); they are the 30 most recent only when the
provider lists records newest first. -/
theorem C9_first_30_in_provider_order (symbol : String) (ts : List (String × String))
    (m : Option (List (String × String))) (period : String)
    (hne : ts ≠ [])
    (hparse : ∀ r ∈ ts.take 30, (parseDate r.1).isSome = true ∧ (parseFloat r.2).isSome = true) :
    ∃ out, get_historical_data symbol ⟨some ts, m⟩ period = some out ∧
      out.dates.length ≤ 30 ∧
      out.dates.length = min ts.length 30 ∧
      out.dates = ((ts.take 30).map (fun r => formatDate (parsedDate r.1))).reverse ∧
      out.prices = ((ts.take 30).map (fun r => (parseFloat r.2).getD 0)).reverse := by
  refine ⟨_, get_historical_data_all_good symbol ts m period hne hparse, ?_, ?_, ?_, rfl⟩
  · simp only [List.length_map, List.length_reverse, List.length_take]
    omega
  · simp only [List.length_map, List.length_reverse, List.length_take]
    omega
  · simp only [List.map_reverse, List.map_map]
    rfl

/-- Witness for C9 amended at a concrete two-record response. -/
theorem C9_first_30_in_provider_order_witness :
    ∃ out, get_historical_data "X" ⟨some descRecords, none⟩ "1week" = some out ∧
      out.dates.length ≤ 30 ∧
      out.dates.length = min descRecords.length 30 ∧
      out.dates = ((descRecords.take 30).map (fun r => formatDate (parsedDate r.1))).reverse ∧
      out.prices = ((descRecords.take 30).map (fun r => (parseFloat r.2).getD 0)).reverse :=
  C9_first_30_in_provider_order "X" descRecords none "1week" (by decide) (by decide)

end FinDash
